import Mathlib

/-!
Shallow embedding of the preview-generation core of
`plex_generate_vid_previews_metrics-webui` (file `src/plex/generator.py`),
written to settle the frozen claims about the artifact (BIF) encoder, the
frame reindexing step, the accelerator admission policy and the per-item
job control flow.

Conventions:
* Python byte strings and file contents are `List Nat` (byte values).
* Python `str` filenames are `List Nat` of Unicode code points; Python's
  string `<` is lexicographic on code points, modelled by `lexLt`.
* `struct.pack("<I", n)` is `le32 n` (the four little-endian bytes).
-/

/-- The four little-endian bytes written by `struct.pack("<I", n)`
(`generator.py`, used at lines 191-193, 203-204, 208-209). -/
def le32 (n : Nat) : List Nat :=
  [n % 256, n / 256 % 256, n / 65536 % 256, n / 16777216 % 256]

/-- Python string `<` on two code-point lists: strict lexicographic order,
comparing code points left to right, a strict prefix sorting first. -/
def lexLt : List Nat → List Nat → Bool
  | [], [] => false
  | [], _ :: _ => true
  | _ :: _, [] => false
  | a :: as, b :: bs => if a < b then true else if b < a then false else lexLt as bs

/-- Python string `<=` (used to model `sorted`): `a <= b ↔ ¬ b < a`. -/
def nameLe (a b : List Nat) : Bool := !(lexLt b a)

/-- A file in the temporary frame directory: its name (code points) and its
content bytes.  `os.stat(...).st_size` is `bytes.length`. -/
structure ImgFile where
  name : List Nat
  bytes : List Nat
deriving DecidableEq

/-- Code points of the string ".jpg". -/
def jpgCodes : List Nat := [46, 106, 112, 103]

/-- `img.endswith('.jpg')` (`generator.py` line 187). -/
def isJpgName (nm : List Nat) : Bool := jpgCodes.isSuffixOf nm

/-- Python's ascending `sorted` order on directory entries, compared by
filename (`generator.py` line 187 sorts the name strings). -/
def nameRel (a b : ImgFile) : Prop := nameLe a.name b.name = true

instance : DecidableRel nameRel := fun a b =>
  inferInstanceAs (Decidable (nameLe a.name b.name = true))

/-- `sorted([img for img in os.listdir(images_path) if img.endswith('.jpg')])`
(`generator.py` line 187): keep exactly the entries ending in ".jpg" and sort
them in ascending filename order. -/
def bifImages (files : List ImgFile) : List ImgFile :=
  List.insertionSort nameRel (files.filter fun f => isJpgName f.name)

/-- `len(images)` for the encoder (`generator.py` line 192). -/
def bifCount (files : List ImgFile) : Nat := (bifImages files).length

/-- The `st_size` values of the enumerated images, in encoding order
(`generator.py` line 202). -/
def bifSizes (files : List ImgFile) : List Nat :=
  (bifImages files).map fun f => f.bytes.length

/-- Initial value of `image_index` (`generator.py` lines 196-197):
`64 + bif_table_size` where `bif_table_size = 8 + 8 * len(images)`. -/
def bifTableStart (n : Nat) : Nat := 64 + (8 + 8 * n)

/-- The header bytes written by `generate_bif` (`generator.py` lines 190-194):
8 magic bytes, version 0, frame count, frame interval in milliseconds
(`1000 * settings.PLEX_BIF_FRAME_INTERVAL`), then `bytes([0x00] * 56)`. -/
def bifHeader (count intervalSec : Nat) : List Nat :=
  [0x89, 0x42, 0x49, 0x46, 0x0d, 0x0a, 0x1a, 0x0a]
    ++ le32 0 ++ le32 count ++ le32 (1000 * intervalSec)
    ++ List.replicate 56 0

/-- The `(timestamp, image_index)` pairs produced by the loop at
`generator.py` lines 200-206: `timestamp` starts at 0 and increments by one
per image, `image_index` advances by each image's byte size. -/
def bifEntries : Nat → Nat → List Nat → List (Nat × Nat)
  | _, _, [] => []
  | t, off, s :: ss => (t, off) :: bifEntries (t + 1) (off + s) ss

/-- Final value of `image_index` after the loop (`generator.py` line 206),
written into the sentinel entry at line 209. -/
def bifFinal : Nat → List Nat → Nat
  | off, [] => off
  | off, s :: ss => bifFinal (off + s) ss

/-- Index-table bytes, in the order written by `generator.py` lines 200-209:
one `(<I timestamp, <I image_index)` pair per image, then the sentinel pair
`(<I 0xffffffff, <I image_index)`. -/
def bifTableBytes (files : List ImgFile) : List Nat :=
  ((bifEntries 0 (bifTableStart (bifCount files)) (bifSizes files)).map
      fun e => le32 e.1 ++ le32 e.2).flatten
    ++ le32 0xffffffff
    ++ le32 (bifFinal (bifTableStart (bifCount files)) (bifSizes files))

/-- Concatenated raw bytes of the enumerated images, in the same order
(`generator.py` lines 211-214). -/
def bifPayload (files : List ImgFile) : List Nat :=
  ((bifImages files).map ImgFile.bytes).flatten

/-- Every byte written to `bif_filename` by `generate_bif`
(`generator.py` lines 189-214), in order: header, index table, payload. -/
def bifBytes (files : List ImgFile) (intervalSec : Nat) : List Nat :=
  bifHeader (bifCount files) intervalSec ++ bifTableBytes files ++ bifPayload files

/-! ## Frame reindexing (`generate_images`, lines 173-177)

`for image in glob(...): frame_no = int(name.strip('img-').strip('.jpg')) - 1;
frame_second = frame_no * PLEX_BIF_FRAME_INTERVAL;
rename to f'{frame_second:010d}.jpg'`.

For the ffmpeg output names `img-%06d.jpg` the two `strip` calls always
recover the decimal ordinal, so the rename is a function of the 1-based
ordinal `k` and the configured interval. -/

/-- The timestamp (in seconds) assigned to the frame with 1-based ordinal `k`
(`generator.py` lines 175-176): `frame_no = k - 1`,
`frame_second = frame_no * PLEX_BIF_FRAME_INTERVAL`. -/
def renameTimestamp (intervalSec k : Nat) : Nat := (k - 1) * intervalSec

/-- The `w` most significant decimal digits of `n` (as code points of the
characters '0'..'9', most significant first): the digit string printed for
`n` by a width-`w` zero-padded decimal format, provided `n < 10 ^ w`. -/
def padCodes : Nat → Nat → List Nat
  | 0, _ => []
  | w + 1, n => (48 + n / 10 ^ w) :: padCodes w (n % 10 ^ w)

/-- Number of decimal digits of `n`, computed with explicit fuel (the fuel
`n` used by `digitLen` always suffices). -/
def digitLenFuel : Nat → Nat → Nat
  | 0, _ => 1
  | f + 1, n => if n < 10 then 1 else digitLenFuel f (n / 10) + 1

/-- Number of decimal digits of `n`. -/
def digitLen (n : Nat) : Nat := digitLenFuel n n

/-- Code points of Python's `f'{n:010d}'`: the decimal digits of `n`,
zero-padded on the left to a minimum width of 10. -/
def pad10Codes (n : Nat) : List Nat := padCodes (max 10 (digitLen n)) n

/-- Code points of the new filename `f'{frame_second:010d}.jpg'` given to the
frame with 1-based ordinal `k` (`generator.py` line 177). -/
def renamedName (intervalSec k : Nat) : List Nat :=
  pad10Codes (renameTimestamp intervalSec k) ++ jpgCodes

/-! ## Accelerator admission policy (`generate_images`, lines 132-151)

Both the NVIDIA branch (line 136) and the AMD branch (line 143) choose
hardware acceleration with the same test:
`if ffmpeg_count < settings.GPU_THREADS or settings.CPU_THREADS == 0`. -/

/-- Whether hardware acceleration is selected, given the contention estimate
(count of running ffmpeg processes on the accelerator), the configured
`GPU_THREADS` budget and the configured `CPU_THREADS` budget
(`generator.py` lines 136 and 143). -/
def selectHwAccel (ffmpegCount gpuThreads cpuThreads : Nat) : Bool :=
  decide (ffmpegCount < gpuThreads) || decide (cpuThreads = 0)

/-! ## Per-item job control flow (`process_item`, lines 220-273, and the
tail of `generate_images`, lines 154-180)

The observable behaviour of one media part that reached line 252 (hash
present, optional filter passed, source file found) is a function of three
environment facts:
* whether the target `index-sd.bif` already exists (line 252);
* the outcome of `generate_images` (line 259): the spawned transcoder exits
  zero (`ok`, after which line 180 calls `insert_metric` once), exits
  non-zero (`nonzeroExit`, after which line 163 returns without raising and
  without inserting a metric), or a Python exception is raised inside
  `generate_images` (`raised`);
* the outcome of `generate_bif` (line 266): it returns (`ok`, the artifact
  file is written) or raises (`raised`, after which lines 268-269 remove any
  partially written artifact).

The temporary directory `tmp_path` is removed by line 262 on the
extraction-exception path and by the `finally` at line 273 otherwise. -/

inductive ExtractOutcome
  | ok
  | nonzeroExit
  | raised
deriving DecidableEq

inductive EncodeOutcome
  | ok
  | raised
deriving DecidableEq

/-- Environment facts that determine one `process_item` iteration. -/
structure JobEnv where
  bifExists : Bool
  extract : ExtractOutcome
  encode : EncodeOutcome
deriving DecidableEq

/-- Observable result of one `process_item` iteration:
`skipped` - the `if not os.path.isfile(index_bif)` guard at line 252 was
false and the whole block was skipped;
`aborted` - an `except` branch ran and the iteration ended with `continue`
(lines 260-263 or 267-271);
`ranExtract` / `ranEncode` - `generate_images` / `generate_bif` was invoked;
`metricCount` - number of `insert_metric` calls (line 180);
`bifExists` - whether the target artifact file exists afterwards;
`tmpExists` - whether the temporary working directory exists afterwards. -/
structure JobResult where
  skipped : Bool
  aborted : Bool
  ranExtract : Bool
  ranEncode : Bool
  metricCount : Nat
  bifExists : Bool
  tmpExists : Bool
deriving DecidableEq

/-- One `process_item` iteration for a media part that reached line 252
(`generator.py` lines 252-273, with `generate_images` lines 154-180). -/
def processItem (env : JobEnv) : JobResult :=
  if env.bifExists then
    { skipped := true, aborted := false, ranExtract := false, ranEncode := false,
      metricCount := 0, bifExists := true, tmpExists := false }
  else
    match env.extract with
    | .raised =>
      { skipped := false, aborted := true, ranExtract := true, ranEncode := false,
        metricCount := 0, bifExists := false, tmpExists := false }
    | .nonzeroExit =>
      match env.encode with
      | .ok =>
        { skipped := false, aborted := false, ranExtract := true, ranEncode := true,
          metricCount := 0, bifExists := true, tmpExists := false }
      | .raised =>
        { skipped := false, aborted := true, ranExtract := true, ranEncode := true,
          metricCount := 0, bifExists := false, tmpExists := false }
    | .ok =>
      match env.encode with
      | .ok =>
        { skipped := false, aborted := false, ranExtract := true, ranEncode := true,
          metricCount := 1, bifExists := true, tmpExists := false }
      | .raised =>
        { skipped := false, aborted := true, ranExtract := true, ranEncode := true,
          metricCount := 1, bifExists := false, tmpExists := false }

/-- Two concrete jpg frame files ("a.jpg", 3 bytes; "b.jpg", 5 bytes) used
to evaluate the encoder. -/
def exC3Files : List ImgFile :=
  [{ name := [97, 46, 106, 112, 103], bytes := [9, 9, 9] },
   { name := [98, 46, 106, 112, 103], bytes := [7, 7, 7, 7, 7] }]

/-! ## Order lemmas for the filename order -/

theorem lexLt_self (l : List Nat) : lexLt l l = false := by
  induction l with
  | nil => rfl
  | cons a as ih => simp [lexLt, ih]

theorem lexLt_asymm : ∀ a b : List Nat, lexLt a b = true → lexLt b a = false
  | [], [], h => by simp [lexLt] at h
  | [], _ :: _, _ => rfl
  | _ :: _, [], h => by simp [lexLt] at h
  | a :: as, b :: bs, h => by
    simp only [lexLt] at h ⊢
    by_cases hab : a < b
    · simp [hab, Nat.lt_asymm hab]
    · by_cases hba : b < a
      · simp [hab, hba] at h
      · simp [hab, hba] at h ⊢
        exact lexLt_asymm as bs h

theorem lexLt_trans : ∀ a b c : List Nat,
    lexLt a b = true → lexLt b c = true → lexLt a c = true
  | [], _, _ :: _, _, _ => rfl
  | [], [], [], h, _ => by simp [lexLt] at h
  | [], _ :: _, [], _, h2 => by simp [lexLt] at h2
  | _ :: _, [], _, h1, _ => by simp [lexLt] at h1
  | _ :: _, _ :: _, [], _, h2 => by simp [lexLt] at h2
  | a :: as, b :: bs, c :: cs, h1, h2 => by
    simp only [lexLt] at h1 h2 ⊢
    rcases Nat.lt_trichotomy a b with hab | hab | hab
    · rcases Nat.lt_trichotomy b c with hbc | hbc | hbc
      · have : a < c := Nat.lt_trans hab hbc
        simp [this]
      · subst hbc; simp [hab]
      · simp [Nat.lt_asymm hbc, hbc] at h2
    · subst hab
      rcases Nat.lt_trichotomy a c with hbc | hbc | hbc
      · simp [hbc]
      · subst hbc
        simp only [Nat.lt_irrefl, if_false] at h1 h2 ⊢
        exact lexLt_trans as bs cs h1 h2
      · simp [Nat.lt_asymm hbc, hbc] at h2
    · simp [Nat.lt_asymm hab, hab] at h1

theorem lexLt_connex : ∀ a b : List Nat,
    lexLt a b = false → lexLt b a = false → a = b
  | [], [], _, _ => rfl
  | [], _ :: _, h1, _ => by simp [lexLt] at h1
  | _ :: _, [], _, h2 => by simp [lexLt] at h2
  | a :: as, b :: bs, h1, h2 => by
    simp only [lexLt] at h1 h2
    rcases Nat.lt_trichotomy a b with hab | hab | hab
    · simp [hab] at h1
    · subst hab
      simp only [Nat.lt_irrefl, if_false] at h1 h2
      rw [lexLt_connex as bs h1 h2]
    · simp [Nat.lt_asymm hab, hab] at h2

theorem nameRel_total (a b : ImgFile) : nameRel a b ∨ nameRel b a := by
  unfold nameRel nameLe
  by_cases h : lexLt b.name a.name = true
  · right
    simp [lexLt_asymm _ _ h]
  · left
    simp at h
    simp [h]

theorem nameRel_trans (a b c : ImgFile) (hab : nameRel a b) (hbc : nameRel b c) :
    nameRel a c := by
  unfold nameRel nameLe at hab hbc ⊢
  simp only [Bool.not_eq_true'] at hab hbc ⊢
  by_cases hca : lexLt c.name a.name = true
  · by_cases hab' : lexLt a.name b.name = true
    · have := lexLt_trans _ _ _ hca hab'
      rw [this] at hbc
      exact absurd hbc (by simp)
    · simp only [Bool.not_eq_true] at hab'
      have : a.name = b.name := lexLt_connex _ _ hab' hab
      rw [← this] at hbc
      rw [hca] at hbc
      exact absurd hbc (by simp)
  · simpa using hca

/-! ## Decimal formatting lemmas -/

theorem padCodes_lexLt : ∀ (w n m : Nat) (s : List Nat), n < 10 ^ w → m < 10 ^ w →
    (lexLt (padCodes w n ++ s) (padCodes w m ++ s) = true ↔ n < m) := by
  intro w
  induction w with
  | zero =>
    intro n m s hn hm
    simp only [pow_zero, Nat.lt_one_iff] at hn hm
    subst hn; subst hm
    simp [padCodes, lexLt_self]
  | succ w ih =>
    intro n m s hn hm
    have hP : 0 < 10 ^ w := Nat.pow_pos (by norm_num)
    simp only [padCodes, List.cons_append, lexLt]
    rcases Nat.lt_trichotomy (n / 10 ^ w) (m / 10 ^ w) with h | h | h
    · rw [if_pos (Nat.add_lt_add_left h 48)]
      constructor
      · intro _; exact Nat.lt_of_div_lt_div h
      · intro _; rfl
    · rw [h, if_neg (Nat.lt_irrefl _), if_neg (Nat.lt_irrefl _)]
      show lexLt (padCodes w (n % 10 ^ w) ++ s) (padCodes w (m % 10 ^ w) ++ s) = true ↔ n < m
      rw [ih (n % 10 ^ w) (m % 10 ^ w) s (Nat.mod_lt n hP) (Nat.mod_lt m hP)]
      have e1 := Nat.div_add_mod n (10 ^ w)
      have e2 := Nat.div_add_mod m (10 ^ w)
      rw [h] at e1
      set t := 10 ^ w * (m / 10 ^ w) with ht
      set r1 := n % 10 ^ w with hr1
      set r2 := m % 10 ^ w with hr2
      omega
    · have hc1 : ¬ (48 + n / 10 ^ w < 48 + m / 10 ^ w) :=
        fun hc => Nat.lt_asymm h (Nat.lt_of_add_lt_add_left hc)
      rw [if_neg hc1, if_pos (Nat.add_lt_add_left h 48)]
      simp only [Bool.false_eq_true, false_iff]
      exact Nat.lt_asymm (Nat.lt_of_div_lt_div h)

theorem digitLenFuel_le : ∀ (f n w : Nat), 1 ≤ w → n < 10 ^ w → digitLenFuel f n ≤ w := by
  intro f
  induction f with
  | zero =>
    intro n w hw _
    simpa [digitLenFuel] using hw
  | succ f ih =>
    intro n w hw hn
    simp only [digitLenFuel]
    by_cases h10 : n < 10
    · simp [h10, hw]
    · rw [if_neg h10]
      have hw2 : 2 ≤ w := by
        by_contra hc
        have hw1 : w = 1 := by omega
        subst hw1
        simp only [pow_one] at hn
        omega
      have hdiv : n / 10 < 10 ^ (w - 1) := by
        rw [Nat.div_lt_iff_lt_mul (by norm_num : (0:ℕ) < 10)]
        have hpow : 10 ^ (w - 1) * 10 = 10 ^ w := by
          rw [← pow_succ]
          congr 1
          omega
        rw [hpow]
        exact hn
      have := ih (n / 10) (w - 1) (by omega) hdiv
      omega

theorem pad10Codes_of_lt (n : Nat) (h : n < 10 ^ 10) : pad10Codes n = padCodes 10 n := by
  unfold pad10Codes digitLen
  rw [Nat.max_eq_left (digitLenFuel_le n n 10 (by norm_num) h)]

/-! ## Index-table lemmas -/

theorem bifEntries_map_fst : ∀ (sizes : List Nat) (t off : Nat),
    (bifEntries t off sizes).map Prod.fst = List.range' t sizes.length := by
  intro sizes
  induction sizes with
  | nil => intro t off; rfl
  | cons s ss ih =>
    intro t off
    simp only [bifEntries, List.map_cons, List.length_cons, List.range'_succ, ih]

theorem bifEntriesBytes_length : ∀ (sizes : List Nat) (t off : Nat),
    (((bifEntries t off sizes).map fun e => le32 e.1 ++ le32 e.2).flatten).length
      = 8 * sizes.length := by
  intro sizes
  induction sizes with
  | nil => intro t off; rfl
  | cons s ss ih =>
    intro t off
    simp only [bifEntries, List.map_cons, List.flatten_cons, List.length_append, ih]
    simp [le32]
    omega

/-! ## Claim theorems -/

/-- C1: the claim says a non-zero transcoder exit raises `ExtractionError`,
the job becomes `Failed`, and no artifact file is created.  Evaluating the
embedded control flow of `process_item` at that input shows the opposite:
`generate_images` merely logs and returns (line 163), no exception path is
taken (`aborted = false`), the encoder still runs, an artifact file is
created at the target path (`bifExists = true`), and no metric is emitted.
Only the temporary-directory removal holds. -/
theorem processItem_nonzero_exit_writes_artifact :
    processItem { bifExists := false, extract := ExtractOutcome.nonzeroExit,
                  encode := EncodeOutcome.ok }
      = { skipped := false, aborted := false, ranExtract := true, ranEncode := true,
          metricCount := 0, bifExists := true, tmpExists := false } := rfl

/-- C2: for every frame set and interval, the header bytes actually written
by `generate_bif` number 8 + 4 + 4 + 4 + 56 = 76, not the 64 the claim (and
the code's own comment at line 194 and offset base at line 197) state, while
the index-table bytes (pairs plus sentinel) do number `8 + 8 * N`. -/
theorem bifHeader_length_76 (files : List ImgFile) (intervalSec : Nat) :
    (bifHeader (bifCount files) intervalSec).length = 76
    ∧ (bifTableBytes files).length = 8 + 8 * bifCount files := by
  constructor
  · simp [bifHeader, le32]
  · have h := bifEntriesBytes_length (bifSizes files) 0 (bifTableStart (bifCount files))
    have hlen : (bifSizes files).length = bifCount files := by
      simp [bifSizes, bifCount]
    unfold bifTableBytes
    rw [List.length_append, List.length_append, h, hlen]
    simp [le32]
    omega

/-- C3: evaluated on two frames of sizes 3 and 5, the index entries are
`[(0, 88), (1, 91)]` - the first offset is `64 + (8 + 8*2) = 88` and offsets
increase by the previous frame's size, as the claim states - and the
sentinel's offset field is `96`; but the file actually written is 108 bytes
long (76-byte header, 24-byte table, 8 payload bytes), so the sentinel
offset does not equal the total file length, refuting the claim's final
conjunct (the 76-byte header shifts every offset by 12). -/
theorem bifSentinel_offset_ne_file_length :
    bifEntries 0 (bifTableStart (bifCount exC3Files)) (bifSizes exC3Files)
      = [(0, 88), (1, 91)]
    ∧ bifFinal (bifTableStart (bifCount exC3Files)) (bifSizes exC3Files) = 96
    ∧ (bifBytes exC3Files 5).length = 108
    ∧ bifFinal (bifTableStart (bifCount exC3Files)) (bifSizes exC3Files)
        ≠ (bifBytes exC3Files 5).length := by
  refine ⟨?_, ?_, ?_, ?_⟩ <;> decide

/-- C4: hardware acceleration is selected if and only if the contention
estimate is strictly below the GPU worker budget or the CPU worker budget is
zero; in particular with contention at or above budget and a positive CPU
budget the software path is taken (`generator.py` lines 136, 143). -/
theorem selectHwAccel_policy (c g p : Nat) :
    (selectHwAccel c g p = true ↔ (c < g ∨ p = 0))
    ∧ (g ≤ c → 0 < p → selectHwAccel c g p = false) := by
  constructor
  · simp [selectHwAccel]
  · intro h1 h2
    simp only [selectHwAccel, Bool.or_eq_false_iff, decide_eq_false_iff_not]
    omega

/-- Witness for C4: with contention 5, GPU budget 4 and CPU budget 3 the
software path is taken. -/
theorem selectHwAccel_policy_checked : selectHwAccel 5 4 3 = false :=
  (selectHwAccel_policy 5 4 3).2 (by norm_num) (by norm_num)

/-- C5 counterexample: at ordinals 10^10 and 10^10 + 1 (interval 1 second)
the assigned timestamps are 9999999999 < 10000000000, but the second frame's
new filename "10000000000.jpg" sorts lexicographically *before* the first's
"9999999999.jpg", because `f'{n:010d}'` stops being fixed-width at 10^10:
lexicographic filename order does not equal numeric timestamp order. -/
theorem renamedName_order_break :
    renameTimestamp 1 10000000000 < renameTimestamp 1 10000000001
    ∧ lexLt (renamedName 1 10000000001) (renamedName 1 10000000000) = true
    ∧ lexLt (renamedName 1 10000000000) (renamedName 1 10000000001) = false := by
  refine ⟨?_, ?_, ?_⟩ <;> decide

/-- C5 (amended): the frame with 1-based ordinal `k` is assigned timestamp
`(k - 1) * interval`, and for frames whose timestamps are below `10 ^ 10`
(the zero-pad width of the rename format) lexicographic order of the renamed
filenames coincides with numeric timestamp order. -/
theorem renamedName_order_iff (intervalSec k1 k2 : Nat)
    (h1 : renameTimestamp intervalSec k1 < 10 ^ 10)
    (h2 : renameTimestamp intervalSec k2 < 10 ^ 10) :
    renameTimestamp intervalSec k1 = (k1 - 1) * intervalSec
    ∧ (lexLt (renamedName intervalSec k1) (renamedName intervalSec k2) = true
        ↔ renameTimestamp intervalSec k1 < renameTimestamp intervalSec k2) := by
  refine ⟨rfl, ?_⟩
  unfold renamedName
  rw [pad10Codes_of_lt _ h1, pad10Codes_of_lt _ h2]
  exact padCodes_lexLt 10 _ _ jpgCodes h1 h2

/-- Witness for C5 (amended): ordinals 1 and 2 at interval 5. -/
theorem renamedName_order_iff_checked :
    renameTimestamp 5 1 = (1 - 1) * 5
    ∧ (lexLt (renamedName 5 1) (renamedName 5 2) = true
        ↔ renameTimestamp 5 1 < renameTimestamp 5 2) :=
  renamedName_order_iff 5 1 2 (by decide) (by decide)

/-- C6: if the target artifact already exists, `process_item` takes the skip
path: no extraction, no encoding, no metric; and after a successful run the
artifact exists, so a second run of the job - whatever its environment would
have produced - again does no extraction or encoding work. -/
theorem processItem_skip_idempotent (env : JobEnv) (ex : ExtractOutcome)
    (en : EncodeOutcome) :
    (env.bifExists = true →
      (processItem env).skipped = true ∧ (processItem env).ranExtract = false
        ∧ (processItem env).ranEncode = false ∧ (processItem env).metricCount = 0)
    ∧ ((processItem ⟨(processItem ⟨false, ExtractOutcome.ok, EncodeOutcome.ok⟩).bifExists, ex, en⟩).skipped = true
        ∧ (processItem ⟨(processItem ⟨false, ExtractOutcome.ok, EncodeOutcome.ok⟩).bifExists, ex, en⟩).ranExtract = false
        ∧ (processItem ⟨(processItem ⟨false, ExtractOutcome.ok, EncodeOutcome.ok⟩).bifExists, ex, en⟩).ranEncode = false) := by
  constructor
  · obtain ⟨b, ex0, en0⟩ := env
    intro h
    cases h
    exact ⟨rfl, rfl, rfl, rfl⟩
  · exact ⟨rfl, rfl, rfl⟩

/-- Witness for C6: a job whose target artifact already exists is skipped. -/
theorem processItem_skip_checked :
    (processItem ⟨true, ExtractOutcome.ok, EncodeOutcome.ok⟩).skipped = true
    ∧ (processItem ⟨true, ExtractOutcome.ok, EncodeOutcome.ok⟩).ranExtract = false
    ∧ (processItem ⟨true, ExtractOutcome.ok, EncodeOutcome.ok⟩).ranEncode = false
    ∧ (processItem ⟨true, ExtractOutcome.ok, EncodeOutcome.ok⟩).metricCount = 0 :=
  (processItem_skip_idempotent ⟨true, ExtractOutcome.ok, EncodeOutcome.ok⟩
    ExtractOutcome.ok EncodeOutcome.ok).1 rfl

/-- C7 counterexample: a job whose extraction succeeds but whose encoding
raises still emits one metric (`insert_metric` runs at line 180, before
`generate_bif` is even called), even though the job then aborts and no
artifact exists - so a metric is not emitted "only upon reaching Done". -/
theorem metric_emitted_on_encode_failure :
    (processItem ⟨false, ExtractOutcome.ok, EncodeOutcome.raised⟩).metricCount = 1
    ∧ (processItem ⟨false, ExtractOutcome.ok, EncodeOutcome.raised⟩).aborted = true
    ∧ (processItem ⟨false, ExtractOutcome.ok, EncodeOutcome.raised⟩).bifExists = false :=
  ⟨rfl, rfl, rfl⟩

/-- C7 (amended): a job emits exactly one metric record if and only if it is
not skipped and its extraction step succeeds; the metric is emitted after
extraction and before encoding, so an encoding failure does not suppress it,
while skipped jobs and jobs whose extraction exits non-zero or raises emit
none. -/
theorem metricCount_iff_extract_ok (env : JobEnv) :
    (processItem env).metricCount
      = if env.bifExists = false ∧ env.extract = ExtractOutcome.ok then 1 else 0 := by
  obtain ⟨b, ex, en⟩ := env
  cases b <;> cases ex <;> cases en <;> rfl

/-- C8: the temporary working directory is removed on every exit path of the
job, and when the encoding step raises, the partially written artifact is
removed before the job aborts. -/
theorem processItem_cleanup (env : JobEnv) :
    (processItem env).tmpExists = false
    ∧ (env.bifExists = false → env.extract ≠ ExtractOutcome.raised →
        env.encode = EncodeOutcome.raised →
        (processItem env).bifExists = false ∧ (processItem env).aborted = true) := by
  obtain ⟨b, ex, en⟩ := env
  constructor
  · cases b <;> cases ex <;> cases en <;> rfl
  · intro h1 h2 h3
    cases h1
    cases h3
    cases ex with
    | ok => exact ⟨rfl, rfl⟩
    | nonzeroExit => exact ⟨rfl, rfl⟩
    | raised => exact absurd rfl h2

/-- Witness for C8: a job with successful extraction and failing encoding
ends with no temporary directory and no artifact. -/
theorem processItem_cleanup_checked :
    (processItem ⟨false, ExtractOutcome.ok, EncodeOutcome.raised⟩).tmpExists = false
    ∧ (processItem ⟨false, ExtractOutcome.ok, EncodeOutcome.raised⟩).bifExists = false
    ∧ (processItem ⟨false, ExtractOutcome.ok, EncodeOutcome.raised⟩).aborted = true :=
  ⟨(processItem_cleanup ⟨false, ExtractOutcome.ok, EncodeOutcome.raised⟩).1,
   ((processItem_cleanup ⟨false, ExtractOutcome.ok, EncodeOutcome.raised⟩).2
      rfl (by decide) rfl).1,
   ((processItem_cleanup ⟨false, ExtractOutcome.ok, EncodeOutcome.raised⟩).2
      rfl (by decide) rfl).2⟩

/-- C9: the encoder's enumeration is sorted in ascending filename order, is
a permutation of exactly the directory entries whose names end in ".jpg",
and a file whose name does not end in ".jpg" has no effect at all on the
encoded bytes (frame count, index table and payload included). -/
theorem bifImages_enumeration (files : List ImgFile) :
    List.Sorted nameRel (bifImages files)
    ∧ (bifImages files).Perm (files.filter fun f => isJpgName f.name)
    ∧ (∀ f : ImgFile, isJpgName f.name = false →
        ∀ i : Nat, bifBytes (f :: files) i = bifBytes files i) := by
  haveI : IsTotal ImgFile nameRel := ⟨nameRel_total⟩
  haveI : IsTrans ImgFile nameRel := ⟨nameRel_trans⟩
  refine ⟨List.sorted_insertionSort nameRel _, List.perm_insertionSort nameRel _, ?_⟩
  intro f hf i
  have himg : bifImages (f :: files) = bifImages files := by
    unfold bifImages
    rw [List.filter_cons_of_neg (by simp [hf])]
  unfold bifBytes bifHeader bifTableBytes bifPayload bifCount bifSizes
  rw [himg]

/-- Witness for C9: a file named "a" (no ".jpg") leaves the output
unchanged. -/
theorem bifImages_enumeration_checked :
    bifBytes [{ name := [97], bytes := [1, 2, 3] }] 5 = bifBytes [] 5 :=
  (bifImages_enumeration []).2.2 { name := [97], bytes := [1, 2, 3] } (by decide) 5

/-- C10: the timestamp fields of the index table are exactly
`0, 1, ..., N - 1` in enumeration order, where `N` is the number of
enumerated ".jpg" entries - they depend only on each frame's position, not
on the numeric values in the filenames, so a missing intermediate frame
shifts all later timestamps instead of leaving a gap. -/
theorem bifEntries_timestamps_range (files : List ImgFile) :
    (bifEntries 0 (bifTableStart (bifCount files)) (bifSizes files)).map Prod.fst
      = List.range (bifCount files) := by
  rw [bifEntries_map_fst (bifSizes files) 0 (bifTableStart (bifCount files)),
    List.range_eq_range']
  congr 1
  simp [bifSizes, bifCount]
